import Mathlib

/-!
Verification of the form-renderer interaction engine: a shallow embedding of
`src/packages/core/src/components/formRenderer/index.tsx` and of the
`FormItemWrapper` component, together with spec-modelled pieces (the
publish/subscribe sequence-number policy and the `debounce` helper) for the
parts of the repository whose implementation files are not available.
-/

namespace FormRenderer

/-- A JavaScript-style first-order value, as it occurs in form data,
extra-state and evaluated field properties. -/
inductive Value where
  | vUndefined
  | vNull
  | vBool (b : Bool)
  | vNum (n : Int)
  | vStr (s : String)
deriving DecidableEq, Repr

/-- JavaScript truthiness of a `Value`, as used by conditions such as
`!valueGetter(item.destroy)` and `valueGetter(hidden) ? 0 : ...`. -/
def truthy : Value → Bool
  | .vUndefined => false
  | .vNull => false
  | .vBool b => b
  | .vNum n => decide (n ≠ 0)
  | .vStr s => decide (s ≠ "")

/-- The shared extra-state: a JavaScript object, embedded as an association
list from keys to values (first occurrence of a key wins on lookup). -/
def ExtraState : Type := List (String × Value)

/-- Current form values: mapping from field name to current value. -/
def FormData : Type := List (String × Value)

/-- The scope handed to every expression evaluation:
`{ formData: form.getFieldsValue(), extraDataRef }`. -/
structure Scope where
  formData : FormData
  extraData : ExtraState

/-- A deferred ("maybe-a-function") field property: either a literal
(`typeof value !== 'function'`) or a compiled expression taking the scope. -/
inductive ExprVal (α : Type) where
  | lit (v : α)
  | fn (f : Scope → α)

/-- `valueGetter` from `formRenderer/index.tsx`: builds the scope from the
form's current values and the extra-state ref, returns non-functions
unchanged and applies functions to the scope. -/
def valueGetter (form : FormData) (extra : ExtraState) (value : ExprVal α) : α :=
  let scope : Scope := { formData := form, extraData := extra }
  match value with
  | .lit v => v
  | .fn f => f scope

/-- The service trigger kinds of `ServiceTriggerEnum`. -/
inductive ServiceTrigger where
  | onMount
  | onFocus
  | onBlur
  | onSearch
  | onChange
deriving DecidableEq, Repr

/-- Normalized field metadata (`FieldItemMetaType`), restricted to the
properties the interaction engine reads, generic in the representation of
deferred expressions (total, or possibly-throwing). -/
structure FieldMetaG (E : Type → Type) where
  fieldName : String
  widget : String
  label : E Value
  rules : E Value
  hidden : E Value
  destroy : E Value
  required : Option (E Value)
  widgetProps : List (String × E Value)
  servicesTriggers : List ServiceTrigger
  colSpan : Option Nat
  dependencies : List String

/-- Field metadata whose deferred expressions always evaluate. -/
abbrev FieldMeta := FieldMetaG ExprVal

/-- `Array.from(new Set(list))`: deduplication keeping the first occurrence
of each element, in order. -/
def jsSetDedup : List String → List String
  | [] => []
  | x :: xs => x :: jsSetDedup (xs.filter (fun y => y ≠ x))
termination_by l => l.length
decreasing_by
  simp only [List.length_cons]
  exact Nat.lt_succ_of_le (List.length_filter_le _ _)

/-- The `shouldRenderFields` computation inside `onValuesChange`: the names
of the fields whose `destroy` expression currently evaluates falsy. -/
def renderableFields (form : FormData) (extra : ExtraState)
    (meta : List FieldMeta) : List String :=
  (meta.filter (fun item => ! truthy (valueGetter form extra item.destroy))).map
    (fun item => item.fieldName)

/-- The `onValuesChange` handler of `FormRenderer`, reduced to the list of
field names it passes to `batchPublishServiceEvent` with the `onChange`
trigger kind.  `dep` is `pubSubCenter.publishDepEvent`: the reverse
dependency-edge lookup of the bus.  Mirrors the source: collect interact
fields per changed field, filter by `shouldRenderFields`, then
`Array.from(new Set(...))`. -/
def onValuesChangeFields (dep : String → List String) (meta : List FieldMeta)
    (form : FormData) (extra : ExtraState)
    (changedFields : List String) : List String :=
  let interactFields := changedFields.flatMap dep
  let shouldRenderFields := renderableFields form extra meta
  let allPubServiceFields := (changedFields ++ interactFields).filter
    (fun fieldName => shouldRenderFields.contains fieldName)
  jsSetDedup allPubServiceFields

/-- What one `FormItemWrapper` renders for a non-destroyed field: the `Col`
span, the props handed to the inner `FormItem`, and the resolved widget
props. -/
structure FormItemView where
  name : String
  span : Nat
  hiddenProp : Value
  labelProp : Value
  rulesProp : Value
  requiredProp : Option Value
  widgetPropsResolved : List (String × Value)
deriving DecidableEq, Repr

/-- The render body of `FormItemWrapper` (the child function of the outer
`shouldUpdate` item): returns `none` when `destroy` evaluates truthy
(nothing is rendered), otherwise the rendered item: `Col` span `0` when
`hidden` evaluates truthy else `colProps.span ?? defaultSpan`, the inner
`FormItem` registered under the field name with evaluated `label`, `rules`,
`hidden`, optional `required` (omitted when the meta has none), and widget
props each resolved through `valueGetter`. -/
def renderFormItem (form : FormData) (extra : ExtraState) (defaultSpan : Nat)
    (m : FieldMeta) : Option FormItemView :=
  if truthy (valueGetter form extra m.destroy) then none
  else some
    { name := m.fieldName
      span := if truthy (valueGetter form extra m.hidden) then 0
              else m.colSpan.getD defaultSpan
      hiddenProp := valueGetter form extra m.hidden
      labelProp := valueGetter form extra m.label
      rulesProp := valueGetter form extra m.rules
      requiredProp := m.required.map (valueGetter form extra)
      widgetPropsResolved := m.widgetProps.map
        (fun p => (p.1, valueGetter form extra p.2)) }

/-- A widget implementation as resolved by `FormItemWrapper`: either a real
component (identified by name) or the diagnostic `NotFoundWidget`
placeholder. -/
inductive WidgetComp where
  | comp (id : String)
  | notFoundComp
deriving DecidableEq, Repr

/-- The warning message emitted when a widget identifier resolves to
nothing, exactly as built in the source. -/
def widgetWarning (widget : String) : String :=
  "widget named `" ++ widget ++ "` is not found!"

/-- Result of widget resolution: the component to render plus the warnings
emitted while resolving. -/
structure WidgetResolution where
  widget : WidgetComp
  warnings : List String
deriving DecidableEq, Repr

/-- The `Widget` memo of `FormItemWrapper`:
`getWidgets(widget) ?? internalWidgets(widget)`, and when that yields
nothing, warn with the identifier and fall back to `NotFoundWidget`. -/
def resolveWidget (getWidgets internalWidgets : String → Option WidgetComp)
    (widget : String) : WidgetResolution :=
  match (getWidgets widget).orElse (fun _ => internalWidgets widget) with
  | none => { widget := .notFoundComp, warnings := [widgetWarning widget] }
  | some w => { widget := w, warnings := [] }

/-- The mount effect of `FormItemWrapper` (`useEffect` with empty deps, so
it runs exactly once per mounted field): publishes one `onMount` service
event iff the field declares the `onMount` trigger.  It does not consult
`destroy`. -/
def mountEffectEvents (m : FieldMeta) : List (String × ServiceTrigger) :=
  if ServiceTrigger.onMount ∈ m.servicesTriggers then
    [(m.fieldName, ServiceTrigger.onMount)]
  else []

/-- All `onMount` service events published when the loaded configuration's
field list mounts. -/
def formMountEvents (meta : List FieldMeta) : List (String × ServiceTrigger) :=
  meta.flatMap mountEffectEvents

/-- Modelled from the spec: the dispatch side of
`PubSubCenter.publishServiceEvent` is not under `src/`; per §4.3 it looks
up the bound service descriptor for `(fieldName, triggerKind)` and, if
none, is a no-op, otherwise dispatches the bound service.  Given the
binding table, maps a list of published events to the service calls they
dispatch. -/
def serviceCallsOf (bindings : String × ServiceTrigger → Option String)
    (events : List (String × ServiceTrigger)) :
    List ((String × ServiceTrigger) × String) :=
  events.filterMap (fun e => (bindings e).map (fun s => (e, s)))

/-- A deferred field property whose compiled expression may throw when
invoked (`Except.error` is a thrown JavaScript exception). -/
inductive ExprValE (α : Type) where
  | lit (v : α)
  | fn (f : Scope → Except String α)

/-- Field metadata whose deferred expressions may throw. -/
abbrev FieldMetaE := FieldMetaG ExprValE

/-- `valueGetter` applied to a possibly-throwing expression.  The source has
no `try`/`catch` here: a non-function comes back unchanged, a function is
invoked and whatever it throws propagates to the caller. -/
def valueGetterE (form : FormData) (extra : ExtraState)
    (value : ExprValE α) : Except String α :=
  let scope : Scope := { formData := form, extraData := extra }
  match value with
  | .lit v => .ok v
  | .fn f => f scope

/-- The render body of `FormItemWrapper` with possibly-throwing
expressions, evaluating the deferred properties in source order (`destroy`,
then the `Col` span's `hidden`, `label`, `rules`, the item's `hidden`,
`required` when present, then each widget prop).  No evaluation is wrapped
in `try`/`catch`, so the first throw aborts the field's render. -/
def renderFormItemE (form : FormData) (extra : ExtraState) (defaultSpan : Nat)
    (m : FieldMetaE) : Except String (Option FormItemView) := do
  let destroyVal ← valueGetterE form extra m.destroy
  if truthy destroyVal then
    return none
  else
    let hiddenSpanVal ← valueGetterE form extra m.hidden
    let labelVal ← valueGetterE form extra m.label
    let rulesVal ← valueGetterE form extra m.rules
    let hiddenItemVal ← valueGetterE form extra m.hidden
    let requiredVal ← match m.required with
      | none => pure none
      | some r => do
          let v ← valueGetterE form extra r
          pure (some v)
    let widgetPropsVals ← m.widgetProps.mapM (fun p => do
      let v ← valueGetterE form extra p.2
      pure (p.1, v))
    return some
      { name := m.fieldName
        span := if truthy hiddenSpanVal then 0 else m.colSpan.getD defaultSpan
        hiddenProp := hiddenItemVal
        labelProp := labelVal
        rulesProp := rulesVal
        requiredProp := requiredVal
        widgetPropsResolved := widgetPropsVals }

/-- The form's field list rendered in order.  React propagates an uncaught
exception from any child's render upward, and the renderer installs no
error boundary, so one throwing field aborts the whole pass. -/
def renderFieldsE (form : FormData) (extra : ExtraState) (defaultSpan : Nat)
    (meta : List FieldMetaE) : Except String (List (Option FormItemView)) :=
  meta.mapM (renderFormItemE form extra defaultSpan)

/-- A concrete field whose `label` expression throws. -/
def throwingLabelField : FieldMetaE :=
  { fieldName := "a"
    widget := "input"
    label := .fn (fun _ => .error "boom")
    rules := .lit .vUndefined
    hidden := .lit (.vBool false)
    destroy := .lit (.vBool false)
    required := none
    widgetProps := []
    servicesTriggers := []
    colSpan := none
    dependencies := [] }

/-- A concrete well-behaved field declared after the throwing one. -/
def literalField : FieldMetaE :=
  { fieldName := "b"
    widget := "select"
    label := .lit (.vStr "B")
    rules := .lit .vUndefined
    hidden := .lit (.vBool false)
    destroy := .lit (.vBool false)
    required := none
    widgetProps := []
    servicesTriggers := []
    colSpan := none
    dependencies := [] }

/-- What `getServiceTriggerProps` hands the widget for one event kind: the
arguments the handler will publish with, and whether the handler was
wrapped in `debounce`. -/
structure HandlerDesc where
  field : String
  trigger : ServiceTrigger
  debounced : Bool
deriving DecidableEq, Repr

/-- The three event props `getServiceTriggerProps` builds. -/
structure TriggerPropsView where
  onBlur : Option HandlerDesc
  onFocus : Option HandlerDesc
  onSearch : Option HandlerDesc
deriving DecidableEq, Repr

/-- One iteration of the `servicesTriggers.forEach` loop in
`getServiceTriggerProps`: installs the handler matching the trigger; the
`onSearch` handler is wrapped in `debounce` exactly when the
`debounceSearch` prop is set. -/
def serviceTriggerStep (name : String) (debounceSearch : Bool)
    (acc : TriggerPropsView) (trigger : ServiceTrigger) : TriggerPropsView :=
  let acc := if trigger = ServiceTrigger.onFocus then
      { acc with onFocus := some ⟨name, ServiceTrigger.onFocus, false⟩ }
    else acc
  let acc := if trigger = ServiceTrigger.onBlur then
      { acc with onBlur := some ⟨name, ServiceTrigger.onBlur, false⟩ }
    else acc
  if trigger = ServiceTrigger.onSearch then
    let h : HandlerDesc := ⟨name, ServiceTrigger.onSearch, debounceSearch⟩
    { acc with onSearch := some h }
  else acc

/-- `getServiceTriggerProps` from `FormItemWrapper`: starts from all-`null`
props and folds the `forEach` step over the declared triggers. -/
def getServiceTriggerProps (debounceSearch : Bool) (m : FieldMeta) :
    TriggerPropsView :=
  m.servicesTriggers.foldl (serviceTriggerStep m.fieldName debounceSearch)
    { onBlur := none, onFocus := none, onSearch := none }

/-- Modelled from the spec: the `debounce` helper imported from
`components/helpers` is not under `src/`; per §5 it applies standard
trailing-edge debounce with a configurable delay.  Given the call times in
ascending order, returns the times at which the wrapped function actually
fires: a call's pending timer fires at `t + delay` unless a further call
arrives strictly earlier than that, which supersedes it; the last call of a
burst always fires. -/
def debounceFires (delay : Nat) : List Nat → List Nat
  | [] => []
  | [t] => [t + delay]
  | t₁ :: t₂ :: ts =>
      (if t₁ + delay ≤ t₂ then [t₁ + delay] else []) ++
        debounceFires delay (t₂ :: ts)

/-- JavaScript property read `obj[k]` on an object embedded as an
association list: the first entry with the key wins. -/
def objGet (k : String) : List (String × Value) → Option Value
  | [] => none
  | p :: ps => if p.1 = k then some p.2 else objGet k ps

/-- The dispatch times produced by the installed search handler for a
burst of search invocations at the given times: a handler wrapped in
`debounce` publishes only at the trailing fire times, while an unwrapped
handler publishes immediately on every call. -/
def searchDispatches (h : HandlerDesc) (delay : Nat) (ts : List Nat) :
    List Nat :=
  if h.debounced then debounceFires delay ts else ts

/-- Whether an object (association list) carries a key. -/
def hasKey (l : List (String × Value)) (k : String) : Bool :=
  (objGet k l).isSome

/-- The JavaScript object spread `{ ...cur, ...next }`: keys of `cur` keep
their positions, with their values overridden by `next` where `next` also
has the key; keys only in `next` are appended in `next`'s order. -/
def objSpread (cur next : List (String × Value)) : List (String × Value) :=
  (cur.map (fun p =>
    match objGet p.1 next with
    | some v => (p.1, v)
    | none => p)) ++
    next.filter (fun p => ! hasKey cur p.1)

/-- The `useEffect` on `[defaultExtraData]` in `formRenderer/index.tsx`:
`updateExtraData({ ...extraDataRef.current, ...defaultExtraData })`. -/
def updateExtraDataEffect (current defaults : ExtraState) : ExtraState :=
  objSpread current defaults

/-- Modelled from the spec: `PubSubCenter`'s service-call bookkeeping is
not under `src/`; per §4.3 every dispatch for a `(fieldName, triggerKind)`
pair is stamped with a monotonically increasing per-pair sequence number,
and the shared extra-state is the merge target of applied responses. -/
structure BusState where
  latest : String × ServiceTrigger → Nat
  extra : ExtraState

/-- Modelled from the spec: issuing a dispatch for a pair stamps it with
the next sequence number for that pair and records it as the latest
issued.  Returns the new state and the stamped number. -/
def dispatchService (p : String × ServiceTrigger) (s : BusState) :
    BusState × Nat :=
  let seq := s.latest p + 1
  ({ s with latest := fun q => if q = p then seq else s.latest q }, seq)

/-- Modelled from the spec: a response is applied — its reported updates
merged into extra-state — only if its sequence number is the latest issued
for its pair; strictly older, superseded responses are silently
discarded. -/
def applyServiceResponse (p : String × ServiceTrigger) (seq : Nat)
    (upd : ExtraState) (s : BusState) : BusState :=
  if seq = s.latest p then { s with extra := objSpread s.extra upd } else s

/-- A concrete field (all-literal properties) used to instantiate the
theorems at evaluable inputs. -/
def litMeta (name : String) (destroyed : Bool) : FieldMeta :=
  { fieldName := name
    widget := "input"
    label := .lit (.vStr name)
    rules := .lit .vUndefined
    hidden := .lit (.vBool false)
    destroy := .lit (.vBool destroyed)
    required := none
    widgetProps := []
    servicesTriggers := []
    colSpan := none
    dependencies := [] }

/-- Concrete metadata: `a` live, `b` live, `c` destroyed. -/
def witnessMetaList : List FieldMeta :=
  [litMeta "a" false, litMeta "b" false, litMeta "c" true]

/-- The destroyed field of `witnessMetaList`. -/
def witnessMetaC : FieldMeta := litMeta "c" true

/-- Concrete reverse dependency edges: both `b` and `c` depend on `a`. -/
def witnessDep : String → List String :=
  fun f => if f = "a" then ["b", "c"] else []

/-- A concrete live field whose `hidden` expression evaluates true. -/
def hiddenMeta : FieldMeta :=
  { litMeta "h" false with hidden := .lit (.vBool true) }

/-- A concrete field declaring the `onMount` service trigger. -/
def mountMeta : FieldMeta :=
  { litMeta "m" false with servicesTriggers := [ServiceTrigger.onMount] }

/-- A concrete destroyed field that still declares `onMount`. -/
def destroyedMountMeta : FieldMeta :=
  { litMeta "d" true with servicesTriggers := [ServiceTrigger.onMount] }

/-- A concrete field declaring the `onSearch` service trigger. -/
def searchMeta : FieldMeta :=
  { litMeta "s" false with servicesTriggers := [ServiceTrigger.onSearch] }

/-- A concrete service-binding table: `m`'s `onMount` event is bound to the
service `fetchItems`; nothing else is bound. -/
def witnessBindings : String × ServiceTrigger → Option String :=
  fun p => if p = ("m", ServiceTrigger.onMount) then some "fetchItems" else none

/-! ## Helper lemmas -/

theorem mem_jsSetDedup (a : String) (l : List String) :
    a ∈ jsSetDedup l ↔ a ∈ l := by
  induction l using jsSetDedup.induct with
  | case1 => simp [jsSetDedup]
  | case2 x xs ih =>
      rw [jsSetDedup]
      simp only [List.mem_cons, ih, List.mem_filter, decide_eq_true_eq]
      by_cases hax : a = x
      · simp [hax]
      · simp [hax]

theorem nodup_jsSetDedup (l : List String) : (jsSetDedup l).Nodup := by
  induction l using jsSetDedup.induct with
  | case1 => simp [jsSetDedup]
  | case2 x xs ih =>
      rw [jsSetDedup]
      refine List.nodup_cons.mpr ⟨?_, ih⟩
      intro hmem
      rw [mem_jsSetDedup] at hmem
      simp at hmem

theorem mem_renderableFields (form : FormData) (extra : ExtraState)
    (meta : List FieldMeta) (x : String) :
    x ∈ renderableFields form extra meta ↔
      ∃ m ∈ meta, m.fieldName = x ∧
        truthy (valueGetter form extra m.destroy) = false := by
  simp only [renderableFields, List.mem_map, List.mem_filter,
    Bool.not_eq_eq_eq_not, Bool.not_true]
  constructor
  · rintro ⟨m, ⟨hm, hd⟩, hx⟩
    exact ⟨m, hm, hx, hd⟩
  · rintro ⟨m, hm, hx, hd⟩
    exact ⟨m, ⟨hm, hd⟩, hx⟩

theorem mem_onValuesChangeFields (dep : String → List String)
    (meta : List FieldMeta) (form : FormData) (extra : ExtraState)
    (changed : List String) (x : String) :
    x ∈ onValuesChangeFields dep meta form extra changed ↔
      ((x ∈ changed ∨ ∃ f ∈ changed, x ∈ dep f) ∧
        x ∈ renderableFields form extra meta) := by
  unfold onValuesChangeFields
  rw [mem_jsSetDedup]
  simp [List.mem_filter, List.mem_append, List.mem_flatMap]
  tauto

theorem serviceCalls_count_zero_of_not_mem
    (bindings : String × ServiceTrigger → Option String)
    (name : String) (t : ServiceTrigger) (svc : String)
    (meta : List FieldMeta)
    (h : name ∉ meta.map (fun m => m.fieldName)) :
    (serviceCallsOf bindings (formMountEvents meta)).count ((name, t), svc)
      = 0 := by
  rw [List.count_eq_zero]
  intro hmem
  simp only [serviceCallsOf, List.mem_filterMap, Option.map_eq_some'] at hmem
  obtain ⟨e, he, a, -, heq⟩ := hmem
  rw [Prod.mk.injEq] at heq
  simp only [formMountEvents, List.mem_flatMap, mountEffectEvents] at he
  obtain ⟨m, hm, hme⟩ := he
  by_cases hms : ServiceTrigger.onMount ∈ m.servicesTriggers
  · rw [if_pos hms] at hme
    simp only [List.mem_singleton] at hme
    apply h
    rw [List.mem_map]
    refine ⟨m, hm, ?_⟩
    have he1 : e = (name, t) := heq.1
    rw [hme, Prod.mk.injEq] at he1
    exact he1.1
  · rw [if_neg hms] at hme
    cases hme

theorem serviceCalls_mount_count (bindings : String × ServiceTrigger → Option String)
    (m : FieldMeta) (svc : String)
    (hb : bindings (m.fieldName, ServiceTrigger.onMount) = some svc) :
    ∀ meta : List FieldMeta, m ∈ meta →
      (meta.map (fun m => m.fieldName)).Nodup →
      (serviceCallsOf bindings (formMountEvents meta)).count
          ((m.fieldName, ServiceTrigger.onMount), svc) =
        if ServiceTrigger.onMount ∈ m.servicesTriggers then 1 else 0 := by
  intro meta
  induction meta with
  | nil => intro hm; cases hm
  | cons m₀ rest ih =>
      intro hm hnodup
      rw [List.map_cons, List.nodup_cons] at hnodup
      have hsplit : serviceCallsOf bindings (formMountEvents (m₀ :: rest)) =
          serviceCallsOf bindings (mountEffectEvents m₀) ++
            serviceCallsOf bindings (formMountEvents rest) := by
        simp [formMountEvents, serviceCallsOf]
      rw [hsplit, List.count_append]
      rcases List.mem_cons.mp hm with h | h
      · subst h
        rw [serviceCalls_count_zero_of_not_mem bindings m.fieldName
          ServiceTrigger.onMount svc rest hnodup.1, Nat.add_zero]
        by_cases hms : ServiceTrigger.onMount ∈ m.servicesTriggers
        · rw [if_pos hms]
          simp [mountEffectEvents, hms, serviceCallsOf, hb]
        · rw [if_neg hms]
          simp [mountEffectEvents, hms, serviceCallsOf]
      · have hname : m₀.fieldName ≠ m.fieldName := by
          intro hqe
          apply hnodup.1
          rw [List.mem_map]
          exact ⟨m, h, hqe.symm⟩
        have hzero : (serviceCallsOf bindings (mountEffectEvents m₀)).count
            ((m.fieldName, ServiceTrigger.onMount), svc) = 0 := by
          rw [List.count_eq_zero]
          intro hmem
          simp only [serviceCallsOf, List.mem_filterMap,
            Option.map_eq_some'] at hmem
          obtain ⟨e, he, a, -, heq⟩ := hmem
          rw [Prod.mk.injEq] at heq
          simp only [mountEffectEvents] at he
          by_cases hms : ServiceTrigger.onMount ∈ m₀.servicesTriggers
          · rw [if_pos hms] at he
            simp only [List.mem_singleton] at he
            apply hname
            have he1 : e = (m.fieldName, ServiceTrigger.onMount) := heq.1
            rw [he, Prod.mk.injEq] at he1
            exact he1.1
          · rw [if_neg hms] at he
            cases he
        rw [hzero, Nat.zero_add]
        exact ih h hnodup.2

theorem onSearch_of_foldl (name : String) (db : Bool) :
    ∀ (l : List ServiceTrigger) (acc : TriggerPropsView),
      (l.foldl (serviceTriggerStep name db) acc).onSearch =
        if ServiceTrigger.onSearch ∈ l then
          some ⟨name, ServiceTrigger.onSearch, db⟩
        else acc.onSearch := by
  intro l
  induction l with
  | nil => intro acc; simp
  | cons t ts ih =>
      intro acc
      rw [List.foldl_cons, ih]
      by_cases ht : t = ServiceTrigger.onSearch
      · subst ht
        by_cases hts : ServiceTrigger.onSearch ∈ ts
        · simp [hts]
        · simp [hts, serviceTriggerStep]
      · have hstep : (serviceTriggerStep name db acc t).onSearch =
            acc.onSearch := by
          cases t <;> simp_all [serviceTriggerStep]
        have hmemc : (ServiceTrigger.onSearch ∈ t :: ts) ↔
            ServiceTrigger.onSearch ∈ ts := by
          rw [List.mem_cons]
          constructor
          · rintro (hc | hc)
            · exact absurd hc.symm ht
            · exact hc
          · exact Or.inr
        rw [hstep]
        simp only [hmemc]

theorem debounceFires_burst (delay : Nat) :
    ∀ ts : List Nat, ts ≠ [] → ts.Chain' (fun a b => b < a + delay) →
      (debounceFires delay ts).length = 1
  | [], h, _ => absurd rfl h
  | [_], _, _ => rfl
  | t₁ :: t₂ :: ts, _, h => by
      rw [List.chain'_cons] at h
      rw [debounceFires, if_neg (Nat.not_le.mpr h.1)]
      simpa using debounceFires_burst delay (t₂ :: ts) (by simp) h.2

theorem objGet_append (k : String) :
    ∀ l₁ l₂ : List (String × Value),
      objGet k (l₁ ++ l₂) = (objGet k l₁).orElse (fun _ => objGet k l₂) := by
  intro l₁ l₂
  induction l₁ with
  | nil => rfl
  | cons p ps ih =>
      by_cases hk : p.1 = k
      · simp [objGet, hk]
      · simp [objGet, hk, ih]

theorem objGet_map_override (next : List (String × Value)) (k : String) :
    ∀ cur : List (String × Value),
      objGet k (cur.map (fun p =>
          match objGet p.1 next with
          | some v => (p.1, v)
          | none => p)) =
        match objGet k cur with
        | some v => some ((objGet k next).getD v)
        | none => none := by
  intro cur
  induction cur with
  | nil => rfl
  | cons p ps ih =>
      by_cases hk : p.1 = k
      · subst hk
        cases hnext : objGet p.1 next <;>
          simp [objGet, hnext, Option.getD]
      · cases hnext : objGet p.1 next <;>
          simp [objGet, hnext, hk, ih]

theorem objGet_filter_new_keys (cur : List (String × Value)) (k : String) :
    ∀ next : List (String × Value),
      objGet k (next.filter (fun p => ! hasKey cur p.1)) =
        if hasKey cur k then none else objGet k next := by
  intro next
  induction next with
  | nil => simp [objGet]
  | cons p ps ih =>
      by_cases hk : p.1 = k
      · subst hk
        by_cases hcur : hasKey cur p.1
        · simp [hcur, List.filter_cons, ih]
        · simp [hcur, List.filter_cons, objGet, ih]
      · by_cases hcur : hasKey cur p.1
        · simp [hcur, List.filter_cons, ih, objGet, hk]
        · simp [hcur, List.filter_cons, objGet, hk, ih]

/-! ## Claim theorems -/

/-- C1: on a value-change event with changed field set `changed`, the field
names handed to `batchPublishServiceEvent` with the `onChange` kind are
exactly the deduplicated intersection of (the changed fields together with
every dependent field `publishDepEvent` returns for a changed field) with
the fields whose `destroy` expression currently evaluates false; in
particular, when field names are unique, a field whose `destroy` evaluates
true never appears, even if it depends on a changed field. -/
theorem onValuesChange_publishes_renderable_dedup (dep : String → List String)
    (meta : List FieldMeta) (form : FormData) (extra : ExtraState)
    (changed : List String) (x : String) :
    (x ∈ onValuesChangeFields dep meta form extra changed ↔
      ((x ∈ changed ∨ ∃ f ∈ changed, x ∈ dep f) ∧
        ∃ m ∈ meta, m.fieldName = x ∧
          truthy (valueGetter form extra m.destroy) = false)) ∧
    (onValuesChangeFields dep meta form extra changed).Nodup ∧
    ((meta.map (fun m => m.fieldName)).Nodup →
      ∀ m ∈ meta, m.fieldName = x →
        truthy (valueGetter form extra m.destroy) = true →
          x ∉ onValuesChangeFields dep meta form extra changed) := by
  refine ⟨?_, ?_, ?_⟩
  · rw [mem_onValuesChangeFields, mem_renderableFields]
  · exact nodup_jsSetDedup _
  · intro hnodup m hm hname hdestroy hmem
    rw [mem_onValuesChangeFields, mem_renderableFields] at hmem
    obtain ⟨-, m', hm', hname', hdestroy'⟩ := hmem
    have hmm : m = m' :=
      List.inj_on_of_nodup_map hnodup hm hm' (by rw [hname, hname'])
    subst hmm
    rw [hdestroy] at hdestroy'
    simp at hdestroy'

/-- C1 witness: a concrete instantiation with a changed field `a`, a
dependent field `b` whose `destroy` is false, and a dependent field `c`
whose `destroy` is true; the published set contains `b` and excludes
`c`. -/
theorem onValuesChange_publishes_renderable_dedup_witness :
    ((List.map (fun m => m.fieldName) witnessMetaList).Nodup ∧
      witnessMetaC ∈ witnessMetaList ∧
      witnessMetaC.fieldName = "c" ∧
      truthy (valueGetter [] [] witnessMetaC.destroy) = true) ∧
    "c" ∉ onValuesChangeFields witnessDep witnessMetaList [] [] ["a"] := by
  refine ⟨⟨?_, ?_, ?_, ?_⟩, ?_⟩
  · decide
  · exact List.Mem.tail _ (List.Mem.tail _ (List.Mem.head _))
  · rfl
  · rfl
  · exact (onValuesChange_publishes_renderable_dedup witnessDep witnessMetaList
      [] [] ["a"] "c").2.2 (by decide) witnessMetaC
      (List.Mem.tail _ (List.Mem.tail _ (List.Mem.head _))) rfl rfl

/-- C3: `valueGetter` returns a non-function candidate unchanged and
invokes a function candidate with the scope built from the form's current
values and the extra-state. -/
theorem valueGetter_literal_or_invoke (α : Type) (form : FormData)
    (extra : ExtraState) (v : α) (f : Scope → α) :
    valueGetter form extra (.lit v) = v ∧
    valueGetter form extra (.fn f) = f { formData := form, extraData := extra } :=
  ⟨rfl, rfl⟩

/-- C5: a field whose `destroy` expression evaluates truthy renders
nothing at all, while a field whose `destroy` is falsy but whose `hidden`
expression evaluates truthy is still rendered and registered under its
field name, with column span `0` and a truthy `hidden` prop. -/
theorem destroy_removes_hidden_keeps (form : FormData) (extra : ExtraState)
    (defaultSpan : Nat) (m : FieldMeta) :
    (truthy (valueGetter form extra m.destroy) = true →
      renderFormItem form extra defaultSpan m = none) ∧
    (truthy (valueGetter form extra m.destroy) = false →
      truthy (valueGetter form extra m.hidden) = true →
        ∃ r, renderFormItem form extra defaultSpan m = some r ∧
          r.span = 0 ∧ truthy r.hiddenProp = true ∧ r.name = m.fieldName) := by
  constructor
  · intro hd
    simp [renderFormItem, hd]
  · intro hd hh
    refine ⟨⟨m.fieldName, 0, valueGetter form extra m.hidden,
      valueGetter form extra m.label, valueGetter form extra m.rules,
      m.required.map (valueGetter form extra),
      m.widgetProps.map (fun p => (p.1, valueGetter form extra p.2))⟩,
      ?_, rfl, hh, rfl⟩
    simp [renderFormItem, hd, hh]

/-- C5 witness: a concrete destroyed field renders nothing; a concrete
live-but-hidden field renders with span `0`, a truthy hidden prop, and its
name registered. -/
theorem destroy_removes_hidden_keeps_witness :
    renderFormItem [] [] 24 (litMeta "c" true) = none ∧
    ∃ r, renderFormItem [] [] 24 hiddenMeta = some r ∧
      r.span = 0 ∧ truthy r.hiddenProp = true ∧ r.name = hiddenMeta.fieldName :=
  ⟨(destroy_removes_hidden_keeps [] [] 24 (litMeta "c" true)).1 rfl,
   (destroy_removes_hidden_keeps [] [] 24 hiddenMeta).2 rfl rfl⟩

/-- C2: for one `(fieldName, triggerKind)` pair, after two dispatches the
second carries the strictly larger sequence number; the second dispatch's
response is applied (its updates merged into the shared extra-state), and
the first dispatch's response, arriving afterwards, is silently discarded:
applying it leaves the state unchanged. -/
theorem serviceResponse_last_dispatch_wins (s : BusState)
    (p : String × ServiceTrigger) (u₁ u₂ : ExtraState) :
    (dispatchService p s).2 < (dispatchService p (dispatchService p s).1).2 ∧
    (applyServiceResponse p (dispatchService p (dispatchService p s).1).2 u₂
        (dispatchService p (dispatchService p s).1).1).extra =
      objSpread (dispatchService p (dispatchService p s).1).1.extra u₂ ∧
    applyServiceResponse p (dispatchService p s).2 u₁
        (applyServiceResponse p (dispatchService p (dispatchService p s).1).2
          u₂ (dispatchService p (dispatchService p s).1).1) =
      applyServiceResponse p (dispatchService p (dispatchService p s).1).2 u₂
        (dispatchService p (dispatchService p s).1).1 := by
  refine ⟨?_, ?_, ?_⟩
  · simp [dispatchService]
  · simp [dispatchService, applyServiceResponse]
  · simp [dispatchService, applyServiceResponse]

/-- C4: the claim that expression-evaluation errors are caught at the
point of evaluation fails on the code: `valueGetter` invokes the compiled
expression with no `try`/`catch`, `FormItemWrapper`'s render guards
nothing, so the throw escapes the field's render and aborts the whole
render pass — at this concrete input the first field's `label` throws and
the second field never renders. -/
theorem renderFields_uncaught_expression_error :
    valueGetterE [] [] throwingLabelField.label = Except.error "boom" ∧
    renderFieldsE [] [] 24 [throwingLabelField, literalField] =
      Except.error "boom" :=
  ⟨rfl, rfl⟩

/-- C6: with unique field names, the mount effects of the loaded
configuration dispatch the service bound to `(field, onMount)` exactly
once for a field declaring the `onMount` trigger, and never for a field
that does not declare it; no external event is involved. -/
theorem onMount_service_fires_once (meta : List FieldMeta) (m : FieldMeta)
    (bindings : String × ServiceTrigger → Option String) (svc : String)
    (hb : bindings (m.fieldName, ServiceTrigger.onMount) = some svc)
    (hm : m ∈ meta) (hnodup : (meta.map (fun m => m.fieldName)).Nodup) :
    (serviceCallsOf bindings (formMountEvents meta)).count
        ((m.fieldName, ServiceTrigger.onMount), svc) =
      if ServiceTrigger.onMount ∈ m.servicesTriggers then 1 else 0 :=
  serviceCalls_mount_count bindings m svc hb meta hm hnodup

/-- C6 witness: in a configuration with one `onMount` field and one plain
field, the bound service is dispatched exactly once for the former and
never for the latter. -/
theorem onMount_service_fires_once_witness :
    ((witnessBindings ("m", ServiceTrigger.onMount) = some "fetchItems") ∧
      mountMeta ∈ [mountMeta, litMeta "p" false] ∧
      (List.map (fun m => m.fieldName)
        [mountMeta, litMeta "p" false]).Nodup) ∧
    (serviceCallsOf witnessBindings
        (formMountEvents [mountMeta, litMeta "p" false])).count
      ((mountMeta.fieldName, ServiceTrigger.onMount), "fetchItems") = 1 := by
  refine ⟨⟨rfl, List.Mem.head _, by decide⟩, ?_⟩
  have h := onMount_service_fires_once [mountMeta, litMeta "p" false] mountMeta
    witnessBindings "fetchItems" rfl (List.Mem.head _) (by decide)
  have hmem : ServiceTrigger.onMount ∈ mountMeta.servicesTriggers :=
    List.Mem.head _
  rw [h, if_pos hmem]

/-- C7: when neither the caller-supplied widget lookup nor the internal
registry yields an implementation, the resolver returns (rather than
throws) the diagnostic `NotFoundWidget` placeholder together with a
warning naming the missing identifier. -/
theorem missing_widget_renders_placeholder
    (getWidgets internalWidgets : String → Option WidgetComp) (w : String)
    (h1 : getWidgets w = none) (h2 : internalWidgets w = none) :
    resolveWidget getWidgets internalWidgets w =
      { widget := .notFoundComp,
        warnings := ["widget named `" ++ w ++ "` is not found!"] } := by
  simp [resolveWidget, h1, h2, Option.orElse, widgetWarning]

/-- C7 witness: with empty lookups, the identifier `cron` resolves to the
placeholder with its warning. -/
theorem missing_widget_renders_placeholder_witness :
    resolveWidget (fun _ => none) (fun _ => none) "cron" =
      { widget := .notFoundComp,
        warnings := ["widget named `" ++ "cron" ++ "` is not found!"] } :=
  missing_widget_renders_placeholder (fun _ => none) (fun _ => none) "cron"
    rfl rfl

/-- C8 counterexample: the claim that rapid-fire search dispatches are
always coalesced fails on the code: the `debounceSearch` prop is optional
with no default, and without it `getServiceTriggerProps` installs the
search handler unwrapped, so a rapid burst of three calls (every gap below
the 300 delay) publishes three times, not once. -/
theorem undebounced_search_dispatches_per_call :
    (getServiceTriggerProps false searchMeta).onSearch =
      some ⟨searchMeta.fieldName, ServiceTrigger.onSearch, false⟩ ∧
    ([0, 100, 150] : List Nat).Chain' (fun a b => b < a + 300) ∧
    (searchDispatches ⟨searchMeta.fieldName, ServiceTrigger.onSearch, false⟩
        300 [0, 100, 150]).length = 3 := by
  refine ⟨?_, ?_, rfl⟩
  · have hmem : ServiceTrigger.onSearch ∈ searchMeta.servicesTriggers :=
      List.Mem.head _
    rw [getServiceTriggerProps, onSearch_of_foldl, if_pos hmem]
  · simp [List.chain'_cons, List.chain'_singleton]

/-- C8 as amended: a field with an `onSearch` trigger gets, when the
`debounceSearch` prop is set, a search handler wrapped in `debounce`; and
a burst of search calls whose consecutive gaps are all below the delay
then results in exactly one underlying dispatch (trailing invocation). -/
theorem debounced_search_single_dispatch (m : FieldMeta) (delay : Nat)
    (ts : List Nat)
    (h1 : ServiceTrigger.onSearch ∈ m.servicesTriggers)
    (h2 : ts ≠ []) (h3 : ts.Chain' (fun a b => b < a + delay)) :
    (getServiceTriggerProps true m).onSearch =
      some ⟨m.fieldName, ServiceTrigger.onSearch, true⟩ ∧
    (debounceFires delay ts).length = 1 := by
  constructor
  · rw [getServiceTriggerProps, onSearch_of_foldl, if_pos h1]
  · exact debounceFires_burst delay ts h2 h3

/-- C8 witness: a concrete search field and a burst of three calls at
times 0, 100, 150 with delay 300 fire exactly once. -/
theorem debounced_search_single_dispatch_witness :
    (ServiceTrigger.onSearch ∈ searchMeta.servicesTriggers ∧
      ([0, 100, 150] : List Nat) ≠ [] ∧
      ([0, 100, 150] : List Nat).Chain' (fun a b => b < a + 300)) ∧
    (getServiceTriggerProps true searchMeta).onSearch =
      some ⟨searchMeta.fieldName, ServiceTrigger.onSearch, true⟩ ∧
    (debounceFires 300 [0, 100, 150]).length = 1 := by
  refine ⟨⟨List.Mem.head _, by decide,
    by simp [List.chain'_cons, List.chain'_singleton]⟩, ?_⟩
  exact debounced_search_single_dispatch searchMeta 300 [0, 100, 150]
    (List.Mem.head _) (by decide)
    (by simp [List.chain'_cons, List.chain'_singleton])

/-- C9 counterexample: the claim says the extra-state is replaced
wholesale by new defaults, but at this concrete input the key `a` of the
previous extra-state is absent from the new defaults and still survives
the update — the effect is a merge, not a replacement. -/
theorem extraData_update_keeps_old_key :
    objGet "a" (updateExtraDataEffect
        [("a", Value.vNum 1)] [("b", Value.vNum 2)]) = some (Value.vNum 1) ∧
    objGet "a" [("b", Value.vNum 2)] = none := by
  constructor <;> rfl

/-- C9 amended: when the caller supplies new default extra-state for an
already-loaded configuration, the new defaults are shallow-merged into the
existing extra-state: a key present in the new defaults takes the default
value, and a key absent from the new defaults keeps its previous value. -/
theorem extraData_update_is_shallow_merge (cur next : ExtraState)
    (k : String) :
    objGet k (updateExtraDataEffect cur next) =
      match objGet k next with
      | some v => some v
      | none => objGet k cur := by
  unfold updateExtraDataEffect objSpread
  rw [objGet_append, objGet_map_override]
  cases hcur : objGet k cur with
  | none =>
      have hkey : hasKey cur k = false := by
        simp [hasKey, hcur]
      rw [objGet_filter_new_keys, hkey]
      simp only [Option.orElse, if_false, Bool.false_eq_true]
      cases objGet k next <;> rfl
  | some v =>
      cases hnext : objGet k next <;>
        simp [Option.orElse, hnext]

/-- C10: the `onMount` self-trigger is independent of `destroy`: a field
declaring `onMount` whose `destroy` expression currently evaluates true
still publishes its mount event exactly once, while the destroy check
suppresses its rendering and keeps it out of the `onChange` publication
set. -/
theorem onMount_fires_despite_destroy (meta : List FieldMeta) (m : FieldMeta)
    (dep : String → List String) (form : FormData) (extra : ExtraState)
    (defaultSpan : Nat) (changed : List String)
    (h1 : ServiceTrigger.onMount ∈ m.servicesTriggers)
    (h2 : truthy (valueGetter form extra m.destroy) = true)
    (h3 : ∀ m₀ ∈ meta, m₀.fieldName = m.fieldName →
      truthy (valueGetter form extra m₀.destroy) = true) :
    mountEffectEvents m = [(m.fieldName, ServiceTrigger.onMount)] ∧
    renderFormItem form extra defaultSpan m = none ∧
    m.fieldName ∉ onValuesChangeFields dep meta form extra changed := by
  refine ⟨?_, ?_, ?_⟩
  · simp [mountEffectEvents, h1]
  · simp [renderFormItem, h2]
  · intro hmem
    rw [mem_onValuesChangeFields, mem_renderableFields] at hmem
    obtain ⟨-, m₀, hm₀, hname₀, hd₀⟩ := hmem
    rw [h3 m₀ hm₀ hname₀] at hd₀
    cases hd₀

/-- C10 witness: a concrete destroyed field declaring `onMount` publishes
its mount event, renders nothing, and is excluded from the `onChange`
publication set even when it is itself the changed field. -/
theorem onMount_fires_despite_destroy_witness :
    mountEffectEvents destroyedMountMeta =
      [(destroyedMountMeta.fieldName, ServiceTrigger.onMount)] ∧
    renderFormItem [] [] 24 destroyedMountMeta = none ∧
    destroyedMountMeta.fieldName ∉
      onValuesChangeFields witnessDep [destroyedMountMeta] [] [] ["d"] :=
  onMount_fires_despite_destroy [destroyedMountMeta] destroyedMountMeta
    witnessDep [] [] 24 ["d"] (List.Mem.head _) rfl
    (fun m₀ hm₀ _ => by
      cases hm₀ with
      | head => rfl
      | tail _ htl => cases htl)

end FormRenderer
